import Mathlib

/-!
Verification development for the Floword repository.

This file gives a shallow embedding, in Lean 4, of the three components the
claims are about:

* the MCP tool-server registry (`src/floword/mcp/manager.py`, class
  `MCPManager`, together with `src/floword/mcp/clinet.py`);
* the conversation/tool-call state machine
  (`src/floword/llms/mcp_agent.py`, class `MCPAgent`);
* the resumable event streamer (`src/floword/router/streamer.py`,
  classes `StreamData`, `PersistentStreamer`,
  `PersistentEventSourceResponse`).

Python dictionaries are embedded as insertion-ordered association lists,
Python exceptions as an explicit error type threaded through `Except`, and
asynchronous generators as explicit state-passing functions.  External
collaborators (the live tool-server sessions and the language model) enter
as oracle functions supplied to the embedded operations.
-/

/-- The Python exceptions that occur in the embedded fragment, one
constructor per distinct raise site / exception meaning.

* `runtimeError` — CPython's `RuntimeError: dictionary changed size during
  iteration`, raised by a dict iterator whose dict was mutated.
* `validationError` — pydantic's `ValidationError` raised by
  `MCPConfig.model_validate`.
* `unpackValueError` — `ValueError: too many values to unpack` (or too
  few), raised by tuple-unpacking `a, b = xs` when `xs` does not have
  exactly two elements.
* `streamNotFound` — `ValueError` raised by `PersistentStreamer.get_stream`
  for an unknown stream id (the `StreamNotFound` kind of the spec).
* `streamExists` — `ValueError` raised by `PersistentStreamer.create_stream`
  for a duplicate stream id (the `AlreadyExists` kind of the spec).
* `toolNotFound` — the NotFound-kind error of the registry's call
  operation for an unknown/disabled/failed server name.
* `needUserPrompt` — `NeedUserPromptError` raised by
  `MCPAgent.chat_stream` (the `NeedsPermission`/state-conflict kind).
* `alreadyResponsed` — `AlreadyResponsedError` raised by
  `MCPAgent.resume_stream` (the `AlreadyResolved` kind of the spec).
* `transportError` — an arbitrary exception raised by a client's transport
  handshake, caught by the `except Exception` of `MCPManager.initialize`. -/
inductive PyError where
  | transportError
  | runtimeError
  | validationError
  | unpackValueError
  | streamNotFound
  | streamExists
  | toolNotFound
  | needUserPrompt
  | alreadyResponsed
  deriving DecidableEq, Repr

/-- First-match lookup in an association list; embeds Python `dict[k]`
access (`dict` keys are unique, so first match is the match). -/
def assocLookup [DecidableEq α] (k : α) : List (α × β) → Option β
  | [] => none
  | (k', v) :: rest => if k' = k then some v else assocLookup k rest

/-- Embeds Python `k in dict`. -/
def assocHas [DecidableEq α] (k : α) (l : List (α × β)) : Bool :=
  (assocLookup k l).isSome

theorem assocLookup_filter_key_of_false [DecidableEq α] (k : α) (f : α → Bool)
    (l : List (α × β)) (hk : f k = false) :
    assocLookup k (l.filter (fun p => f p.1)) = none := by
  induction l with
  | nil => rfl
  | cons hd tl ih =>
    by_cases hf : f hd.1
    · have : hd.1 ≠ k := by
        intro he
        rw [he, hk] at hf
        exact Bool.false_ne_true hf
      simp [List.filter_cons, hf, assocLookup, this, ih]

    · simp [List.filter_cons, hf, ih]

theorem assocLookup_filter_key_of_true [DecidableEq α] (k : α) (f : α → Bool)
    (l : List (α × β)) (hk : f k = true) :
    assocLookup k (l.filter (fun p => f p.1)) = assocLookup k l := by
  induction l with
  | nil => rfl
  | cons hd tl ih =>
    obtain ⟨k1, v⟩ := hd
    by_cases he : k1 = k
    · subst he
      simp [List.filter_cons, hk, assocLookup]
    · by_cases hf : f k1
      · simp [List.filter_cons, hf, assocLookup, he, ih]
      · simp [List.filter_cons, hf, assocLookup, he, ih]

theorem assocLookup_isSome_of_mem_keys [DecidableEq α] (k : α)
    (l : List (α × β)) (h : k ∈ l.map Prod.fst) :
    (assocLookup k l).isSome = true := by
  induction l with
  | nil => simp at h
  | cons hd tl ih =>
    by_cases he : hd.1 = k
    · simp [assocLookup, he]
    · simp only [List.map_cons, List.mem_cons] at h
      rcases h with h | h

      · exact absurd h.symm he
      · simp [assocLookup, he, ih h]

/-!
## The MCP tool-server registry (`src/floword/mcp/manager.py`)
-/

/-- Parsed server parameters (`ServerParams` of `src/floword/mcp/clinet.py`:
`StdioServerParameters` or `SSEServerParameters`).  The registry treats them
opaquely — it only stores and forwards them — so they are embedded as an
opaque tag. -/
structure ServerParams where
  paramsId : Nat
  deriving DecidableEq, Repr

/-- One raw JSON entry of the `mcpServers` map, before pydantic validation:
`enabled` is the optional `"enabled"` key read by
`server_params.get("enabled", True)`; `parsed` is `some p` when
`MCPConfig.model_validate` would accept the entry (yielding `p`) and `none`
when validation would raise. -/
structure RawParams where
  enabled : Option Bool
  parsed : Option ServerParams
  deriving DecidableEq, Repr

/-- The payload of one tool invocation, `{content, isError}` at the tool
invocation boundary.  Opaque to the registry, which forwards it verbatim. -/
structure CallToolResult where
  content : String
  isError : Bool
  deriving DecidableEq, Repr

/-- Oracle describing the behaviour of the external tool server behind one
client: the outcome of the transport handshake performed by
`MCPClient.initialize` (`none` = success), and the result
`self.session.call_tool` returns for a (tool name, args-JSON) pair. -/
structure ClientBehavior where
  connectError : Option PyError
  callResult : String → String → CallToolResult

/-- `MCPClient` of `src/floword/mcp/clinet.py`, as the registry sees it:
its constructor argument `server_params` plus the oracle behaviour of the
external server it connects to. -/
structure MCPClient where
  server_params : ServerParams
  behavior : ClientBehavior

/-- State of `MCPManager` (`src/floword/mcp/manager.py`, lines 47-91).
Python dicts become insertion-ordered association lists. -/
structure MCPManager where
  clients : List (String × MCPClient)
  disabled_clients : List String
  failed_clients : List (String × (ServerParams × PyError))
  initialized : Bool
  mcp_config : List (String × ServerParams)

/-- The `for server_name, server_params in mcp_configs["mcpServers"].items()`
loop of `MCPManager.__init__` (lines 59-62), which calls
`del mcp_configs["mcpServers"][server_name]` on a disabled entry *while
iterating the same dict*.  CPython dict iterators check on every `next()`
that the dict's size is unchanged and raise
`RuntimeError: dictionary changed size during iteration` otherwise; the
`for` statement always issues another `next()` after the deletion, so the
loop completes exactly when no entry is disabled, and raises `RuntimeError`
at the first entry whose `"enabled"` key is `False` (absent defaults to
`True`). -/
def removeDisabledLoop : List (String × RawParams) → Except PyError Unit
  | [] => Except.ok ()
  | (_, p) :: rest =>
    if p.enabled.getD true then removeDisabledLoop rest
    else Except.error PyError.runtimeError

/-- `MCPConfig.model_validate` (line 64) over the entries remaining after
the removal loop: every entry must parse, a single failure raises
pydantic's `ValidationError` and aborts construction. -/
def parseConfig : List (String × RawParams) → Except PyError (List (String × ServerParams))
  | [] => Except.ok []
  | (n, p) :: rest =>
    match p.parsed with
    | none => Except.error PyError.validationError
    | some sp => Except.map (fun cfg => (n, sp) :: cfg) (parseConfig rest)

/-- `MCPManager.__init__` (lines 53-69): run the disabled-removal loop,
validate the remaining config, then build one `MCPClient` per entry,
with `failed_clients = {}`, `initialized = False`.  `env` is the oracle
assigning each server name the behaviour of its external server. -/
def MCPManager.construct (env : String → ClientBehavior)
    (raw : List (String × RawParams)) : Except PyError MCPManager := do
  _ ← removeDisabledLoop raw
  let cfg ← parseConfig raw
  Except.ok
    { clients := cfg.map (fun nsp => (nsp.1, MCPClient.mk nsp.2 (env nsp.1)))
      disabled_clients := []
      failed_clients := []
      initialized := false
      mcp_config := cfg }

/-- `MCPManager.initialize` (lines 71-86): attempt every client's
handshake, record each failure as `(server_params, exception)` in
`failed_clients`, then (only when at least one failure happened) rebuild
`clients` without the failed names, and set `initialized = True`
unconditionally.  `failedAfterInit` is the `failed_clients` dict after the
`try/except` loop over `self.clients.items()` (lines 72-77). -/
def failedAfterInit (m : MCPManager) : List (String × (ServerParams × PyError)) :=
  m.failed_clients ++ m.clients.filterMap
    (fun nc => (nc.2.behavior.connectError).map (fun e => (nc.1, (nc.2.server_params, e))))

/-- The rest of `MCPManager.initialize` (lines 79-86): drop the failed
names from `clients` (the dict comprehension runs only when at least one
client failed) and set `initialized = True`. -/
def MCPManager.initializeClients (m : MCPManager) : MCPManager :=
  { m with
      clients :=
        if (failedAfterInit m).isEmpty then m.clients
        else m.clients.filter (fun nc => !(assocHas nc.1 (failedAfterInit m)))
      failed_clients := failedAfterInit m
      initialized := true }

/-- Modelled from the spec: `MCPManager.call_tool` is invoked by
`MCPAgent._execute_one_tool_call_part` (`src/floword/llms/mcp_agent.py`,
line 81) and `Agent` (line 59 of `agent.py`), but no definition of it
appears anywhere under the source tree.  The spec's contract:
"`call(serverName, toolName, args)` — looks up the usable client for
`serverName`; fails with a NotFound-kind error if the name is unknown or
was disabled/failed; otherwise forwards the call and returns the tool's
result payload verbatim (opaque to this layer)." -/
def MCPManager.call_tool (m : MCPManager) (serverName toolName args : String) :
    Except PyError CallToolResult :=
  match assocLookup serverName m.clients with
  | none => Except.error PyError.toolNotFound
  | some c => Except.ok (c.behavior.callResult toolName args)

theorem parseConfig_keys (raw : List (String × RawParams))
    (cfg : List (String × ServerParams)) (h : parseConfig raw = Except.ok cfg) :
    cfg.map Prod.fst = raw.map Prod.fst := by
  induction raw generalizing cfg with
  | nil =>
    unfold parseConfig at h
    cases h
    rfl
  | cons hd tl ih =>
    obtain ⟨n, p⟩ := hd
    unfold parseConfig at h
    cases hp : p.parsed with
    | none => rw [hp] at h; cases h
    | some sp =>
      rw [hp] at h
      cases h3 : parseConfig tl with
      | error e => rw [h3] at h; simp [Except.map] at h
      | ok cfg' =>
        rw [h3] at h
        simp only [Except.map] at h
        cases h
        simp [ih cfg' h3]

theorem construct_ok_spec (env : String → ClientBehavior)
    (raw : List (String × RawParams)) (m : MCPManager)
    (h : MCPManager.construct env raw = Except.ok m) :
    m.disabled_clients = [] ∧ m.failed_clients = [] ∧ m.initialized = false ∧
      m.clients.map Prod.fst = raw.map Prod.fst := by
  unfold MCPManager.construct at h
  cases h1 : removeDisabledLoop raw with
  | error e => rw [h1] at h; simp [Bind.bind, Except.bind] at h
  | ok u =>
    rw [h1] at h
    cases h2 : parseConfig raw with
    | error e => rw [h2] at h; simp [Bind.bind, Except.bind] at h
    | ok cfg =>
      rw [h2] at h
      simp only [Bind.bind, Except.bind] at h
      cases h
      refine ⟨rfl, rfl, rfl, ?_⟩
      simp [List.map_map]
      exact parseConfig_keys raw cfg h2

theorem initializeClients_keeps_disabled (m : MCPManager) :
    (MCPManager.initializeClients m).disabled_clients = m.disabled_clients := rfl

theorem dropFailed_excluded [DecidableEq α] (name : α) (clients : List (α × γ))
    (failed : List (α × δ)) (hF : assocHas name failed = true) :
    assocHas name
      (if failed.isEmpty then clients
       else clients.filter (fun nc => !(assocHas nc.1 failed))) = false := by
  by_cases hemp : failed.isEmpty
  · rw [List.isEmpty_iff] at hemp
    rw [hemp] at hF
    simp [assocHas, assocLookup] at hF
  · rw [if_neg hemp]
    have hfn : (fun k => !(assocHas k failed)) name = false := by
      simp only [hF, Bool.not_true]
    have h2 := assocLookup_filter_key_of_false name
      (fun k => !(assocHas k failed)) clients hfn
    simpa [assocHas] using h2

theorem dropFailed_kept [DecidableEq α] (name : α) (clients : List (α × γ))
    (failed : List (α × δ)) (hF : assocHas name failed = false) :
    assocLookup name
      (if failed.isEmpty then clients
       else clients.filter (fun nc => !(assocHas nc.1 failed))) =
      assocLookup name clients := by
  by_cases hemp : failed.isEmpty
  · rw [if_pos hemp]
  · rw [if_neg hemp]
    have hfn : (fun k => !(assocHas k failed)) name = true := by
      simp only [hF, Bool.not_false]
    exact assocLookup_filter_key_of_true name
      (fun k => !(assocHas k failed)) clients hfn

theorem initializeClients_failed_excluded (m : MCPManager) (name : String)
    (hF : assocHas name (MCPManager.initializeClients m).failed_clients = true) :
    assocHas name (MCPManager.initializeClients m).clients = false :=
  dropFailed_excluded name m.clients (failedAfterInit m) hF

theorem initializeClients_ok_kept (m : MCPManager) (name : String)
    (hF : assocHas name (MCPManager.initializeClients m).failed_clients = false) :
    assocLookup name (MCPManager.initializeClients m).clients =
      assocLookup name m.clients :=
  dropFailed_kept name m.clients (failedAfterInit m) hF

/-- Concrete oracle used by witnesses: server `"beta"` fails its transport
handshake, every other server connects and echoes tool name plus args. -/
def wEnv : String → ClientBehavior := fun n =>
  if n = "beta" then
    { connectError := some PyError.transportError
      callResult := fun _ _ => { content := "", isError := true } }
  else
    { connectError := none
      callResult := fun t a => { content := String.append t a, isError := false } }

/-- Concrete two-server config used by witnesses, both entries enabled. -/
def wRaw : List (String × RawParams) :=
  [("alpha", { enabled := none, parsed := some { paramsId := 0 } }),
   ("beta", { enabled := some true, parsed := some { paramsId := 1 } })]

/-- C2: for every config whose construction and `initialize()` complete,
every server name named in the config appears in exactly one of
{usable clients, disabled list, failed map}, and the `initialized` flag
goes from false (after construction) to true (after `initialize()`),
regardless of how many clients failed. -/
theorem registry_partition_after_init (env : String → ClientBehavior)
    (raw : List (String × RawParams)) (m : MCPManager)
    (h : MCPManager.construct env raw = Except.ok m)
    (name : String) (hmem : name ∈ raw.map Prod.fst) :
    ((assocHas name (MCPManager.initializeClients m).clients = true ∧
        name ∉ (MCPManager.initializeClients m).disabled_clients ∧
        assocHas name (MCPManager.initializeClients m).failed_clients = false) ∨
      (assocHas name (MCPManager.initializeClients m).clients = false ∧
        name ∈ (MCPManager.initializeClients m).disabled_clients ∧
        assocHas name (MCPManager.initializeClients m).failed_clients = false) ∨
      (assocHas name (MCPManager.initializeClients m).clients = false ∧
        name ∉ (MCPManager.initializeClients m).disabled_clients ∧
        assocHas name (MCPManager.initializeClients m).failed_clients = true)) ∧
    m.initialized = false ∧
    (MCPManager.initializeClients m).initialized = true := by
  obtain ⟨hd, hf0, hi0, hkeys⟩ := construct_ok_spec env raw m h
  have hdis : (MCPManager.initializeClients m).disabled_clients = [] := by
    rw [initializeClients_keeps_disabled, hd]
  refine ⟨?_, hi0, rfl⟩
  by_cases hF : assocHas name (MCPManager.initializeClients m).failed_clients = true
  · right; right
    exact ⟨initializeClients_failed_excluded m name hF, by simp [hdis], hF⟩
  · left
    have hF' : assocHas name (MCPManager.initializeClients m).failed_clients = false := by
      revert hF
      cases assocHas name (MCPManager.initializeClients m).failed_clients <;> simp
    have hsome : (assocLookup name m.clients).isSome = true :=
      assocLookup_isSome_of_mem_keys name m.clients (by rw [hkeys]; exact hmem)
    have hkept := initializeClients_ok_kept m name hF'
    refine ⟨?_, by simp [hdis], hF'⟩
    simp only [assocHas, hkept, hsome]

/-- Witness for C2: the concrete config `wRaw` under `wEnv`, where server
`"beta"` fails its handshake, at name `"beta"`. -/
theorem registry_partition_after_init_witness :
    ∃ m, MCPManager.construct wEnv wRaw = Except.ok m ∧
      (((assocHas "beta" (MCPManager.initializeClients m).clients = true ∧
          "beta" ∉ (MCPManager.initializeClients m).disabled_clients ∧
          assocHas "beta" (MCPManager.initializeClients m).failed_clients = false) ∨
        (assocHas "beta" (MCPManager.initializeClients m).clients = false ∧
          "beta" ∈ (MCPManager.initializeClients m).disabled_clients ∧
          assocHas "beta" (MCPManager.initializeClients m).failed_clients = false) ∨
        (assocHas "beta" (MCPManager.initializeClients m).clients = false ∧
          "beta" ∉ (MCPManager.initializeClients m).disabled_clients ∧
          assocHas "beta" (MCPManager.initializeClients m).failed_clients = true)) ∧
      m.initialized = false ∧
      (MCPManager.initializeClients m).initialized = true) :=
  ⟨_, rfl, registry_partition_after_init wEnv wRaw _ rfl "beta" (by decide)⟩

/-- The MCP config written by the repository's own test fixture
`temp_mcp_config` (`src/tests/conftest.py`): server `"mock"` enabled,
server `"disabled-mock"` with `"enabled": false`; both entries are valid
server parameter dicts. -/
def conftestRaw : List (String × RawParams) :=
  [("mock", { enabled := some true, parsed := some { paramsId := 0 } }),
   ("disabled-mock", { enabled := some false, parsed := some { paramsId := 1 } })]

/-- C3: evaluating `MCPManager.__init__` on the repository's own test
config, which contains a disabled entry, raises
`RuntimeError: dictionary changed size during iteration` instead of
recording the entry as disabled — the deletion at line 61 mutates the dict
the line-59 loop is iterating.  The repository's tests construct
`MCPManager(temp_mcp_config)` from exactly this config and assume
construction succeeds, so the code contradicts its own tests. -/
theorem construct_fails_on_disabled_entry :
    MCPManager.construct wEnv conftestRaw = Except.error PyError.runtimeError := rfl

/-- C1: after a completed `initialize()`, the registry's call operation
returns the NotFound-kind error whenever the server name has no usable
client — in particular whenever the name is in the failed map or the
disabled list — and otherwise forwards to the looked-up client and
returns that client's result payload verbatim.  (`MCPManager.call_tool`
itself is modelled from the spec, since its definition is absent from the
source tree; the exclusion of failed and disabled names is proved from the
embedded `__init__`/`initialize` code.) -/
theorem call_tool_contract (env : String → ClientBehavior)
    (raw : List (String × RawParams)) (m : MCPManager)
    (h : MCPManager.construct env raw = Except.ok m)
    (server tool args : String) :
    (assocHas server (MCPManager.initializeClients m).clients = false →
      MCPManager.call_tool (MCPManager.initializeClients m) server tool args =
        Except.error PyError.toolNotFound) ∧
    (assocHas server (MCPManager.initializeClients m).failed_clients = true →
      MCPManager.call_tool (MCPManager.initializeClients m) server tool args =
        Except.error PyError.toolNotFound) ∧
    (server ∈ (MCPManager.initializeClients m).disabled_clients →
      MCPManager.call_tool (MCPManager.initializeClients m) server tool args =
        Except.error PyError.toolNotFound) ∧
    (∀ c, assocLookup server (MCPManager.initializeClients m).clients = some c →
      MCPManager.call_tool (MCPManager.initializeClients m) server tool args =
        Except.ok (c.behavior.callResult tool args)) := by
  obtain ⟨hd, hf0, hi0, hkeys⟩ := construct_ok_spec env raw m h
  have hnotfound : assocHas server (MCPManager.initializeClients m).clients = false →
      MCPManager.call_tool (MCPManager.initializeClients m) server tool args =
        Except.error PyError.toolNotFound := by
    intro hF
    have hnone : assocLookup server (MCPManager.initializeClients m).clients = none := by
      have hF' := hF
      rw [assocHas] at hF'
      exact Option.not_isSome_iff_eq_none.mp (by simp [hF'])
    simp [MCPManager.call_tool, hnone]
  refine ⟨hnotfound, ?_, ?_, ?_⟩
  · intro hF
    exact hnotfound (initializeClients_failed_excluded m server hF)
  · intro hmem
    rw [initializeClients_keeps_disabled, hd] at hmem
    cases hmem
  · intro c hc
    simp [MCPManager.call_tool, hc]

/-- Witness for C1: the concrete registry built from `wRaw` under `wEnv`,
queried at the unknown server name `"ghost"`. -/
theorem call_tool_contract_witness :
    ∃ m, MCPManager.construct wEnv wRaw = Except.ok m ∧
      ((assocHas "ghost" (MCPManager.initializeClients m).clients = false →
        MCPManager.call_tool (MCPManager.initializeClients m) "ghost" "t" "a" =
          Except.error PyError.toolNotFound) ∧
      (assocHas "ghost" (MCPManager.initializeClients m).failed_clients = true →
        MCPManager.call_tool (MCPManager.initializeClients m) "ghost" "t" "a" =
          Except.error PyError.toolNotFound) ∧
      ("ghost" ∈ (MCPManager.initializeClients m).disabled_clients →
        MCPManager.call_tool (MCPManager.initializeClients m) "ghost" "t" "a" =
          Except.error PyError.toolNotFound) ∧
      (∀ c, assocLookup "ghost" (MCPManager.initializeClients m).clients = some c →
        MCPManager.call_tool (MCPManager.initializeClients m) "ghost" "t" "a" =
          Except.ok (c.behavior.callResult "t" "a"))) :=
  ⟨_, rfl, call_tool_contract wEnv wRaw _ rfl "ghost" "t" "a"⟩

/-!
## The conversation/tool-call state machine (`src/floword/llms/mcp_agent.py`)

Message parts mirror the pydantic-ai message model as used by the agent:
a request turn carries system/user/tool-return parts, a response turn
carries text and tool-call parts.  The language model is an oracle
mapping a message history to the finalized response parts plus a token
count; the event stream the model produces is abstracted to its
finalized result, since the claims are about state transitions and
errors, not the intermediate deltas.
-/

/-- `pydantic_ai.messages.ToolCallPart`: a proposed, not yet executed
tool invocation.  `args` is the opaque argument JSON. -/
structure ToolCallPart where
  tool_name : String
  args : String
  tool_call_id : String
  deriving DecidableEq, Repr

/-- `pydantic_ai.messages.ToolReturnPart` as built by
`MCPAgent._execute_one_tool_call_part` (lines 82-86). -/
structure ToolReturnPart where
  tool_name : String
  content : CallToolResult
  tool_call_id : String
  deriving DecidableEq, Repr

/-- The parts of a `ModelRequest`. -/
inductive RequestPart where
  | system (content : Option String)
  | user (content : String)
  | toolReturn (p : ToolReturnPart)
  deriving DecidableEq, Repr

/-- The parts of a `ModelResponse`. -/
inductive ResponsePart where
  | text (content : String)
  | toolCall (p : ToolCallPart)
  deriving DecidableEq, Repr

/-- `pydantic_ai.messages.ModelMessage`: one request or response turn. -/
inductive ModelMessage where
  | request (parts : List RequestPart)
  | response (parts : List ResponsePart)
  deriving DecidableEq, Repr

/-- `pydantic_ai.usage.Usage`, reduced to the counters the claims are
about: request count and token count. -/
structure Usage where
  requests : Nat
  total_tokens : Nat
  deriving DecidableEq, Repr

/-- `self._usage.incr(response.usage(), requests=1)` (line 202). -/
def Usage.incr (u : Usage) (tokens reqs : Nat) : Usage :=
  { requests := u.requests + reqs, total_tokens := u.total_tokens + tokens }

/-- The black-box model engine: message history in, finalized response
parts and engine-reported token count out. -/
def ModelOracle : Type := List ModelMessage → List ResponsePart × Nat

/-- State of `MCPAgent` (lines 37-53). -/
structure MCPAgent where
  system_prompt : Option String
  last_conversation : Option (List ModelMessage)
  last_response : Option (List ResponsePart)
  usage : Usage

/-- Python's truthiness-based `x or y` for an optional list
(`self._last_conversation or self._get_init_messages()`): `None` and the
empty list both fall through to the default. -/
def pyOrMsgs (o : Option (List α)) (d : List α) : List α :=
  match o with
  | some l => if l.isEmpty then d else l
  | none => d

/-- `MCPAgent._get_init_messages` (lines 55-56). -/
def MCPAgent.getInitMessages (a : MCPAgent) : List ModelMessage :=
  [ModelMessage.request [RequestPart.system a.system_prompt]]

/-- The `isinstance(tool_call_part, ToolCallPart)` selection. -/
def ResponsePart.toolCallPart? : ResponsePart → Option ToolCallPart
  | ResponsePart.toolCall p => some p
  | ResponsePart.text _ => none

/-- Python `str.split(sep)` on character lists: splits at *every*
occurrence of `sep`, never collapsing, so the result always has one more
field than there are separators (`"".split(sep) == ['']`). -/
def pySplitChars (sep : Char) : List Char → List (List Char)
  | [] => [[]]
  | c :: rest =>
    if c = sep then [] :: pySplitChars sep rest
    else
      match pySplitChars sep rest with
      | f :: fs => (c :: f) :: fs
      | [] => [[c]]

/-- Python `s.split(sep)` for a one-character separator. -/
def pySplit (sep : Char) (s : String) : List String :=
  (pySplitChars sep s.toList).map (fun cs => String.mk cs)

/-- `f"{server_name}-{tool.name}"` of `MCPAgent._get_tool_definitions`
(line 61): the composite tool identity. -/
def mkToolDefinitionName (serverName toolName : String) : String :=
  serverName ++ "-" ++ toolName

/-- `MCPAgent._dispatch_tool_definition_name` (lines 68-70):
`server_name, tool_name = tool_definition_name.split("-")` — a two-way
unpack of an *unbounded* split, raising `ValueError` unless the split
yields exactly two fields. -/
def dispatch_tool_definition_name (name : String) : Except PyError (String × String) :=
  match pySplit '-' name with
  | [s, t] => Except.ok (s, t)
  | _ => Except.error PyError.unpackValueError

/-- `MCPAgent._execute_one_tool_call_part` (lines 79-86): dispatch the
composite name, call the registry, tag the result with the originating
`tool_call_id`. -/
def executeOneToolCallPart (mgr : MCPManager) (p : ToolCallPart) :
    Except PyError ToolReturnPart := do
  let st ← dispatch_tool_definition_name p.tool_name
  let r ← MCPManager.call_tool mgr st.1 st.2 p.args
  Except.ok { tool_name := p.tool_name, content := r, tool_call_id := p.tool_call_id }

/-- The task results in *completion order*: `σ` lists the indices of the
gathered coroutines in the order they complete; each completion carries
its input index and its outcome. -/
def completions (exec : α → Except ε β) (parts : List α) (σ : List Nat) :
    List (Nat × Except ε β) :=
  σ.filterMap (fun i => (parts.get? i).map (fun p => (i, exec p)))

/-- `Except.toOption` written out, to keep the development self-contained. -/
def exceptValue? : Except ε β → Option β
  | Except.ok b => some b
  | Except.error _ => none

/-- `asyncio.gather(*coros)`: the coroutines complete in the arbitrary
order `σ`; the first exception in completion order propagates; otherwise
the results are returned in the *input* order, each index recovering its
own completion. -/
def gatherTasks (exec : α → Except ε β) (parts : List α) (σ : List Nat) :
    Except ε (List β) :=
  match (completions exec parts σ).filterMap
      (fun ir => match ir.2 with
        | Except.error e => some e
        | Except.ok _ => none) with
  | e :: _ => Except.error e
  | [] => Except.ok ((List.range parts.length).filterMap
      (fun j => (assocLookup j (completions exec parts σ)).bind exceptValue?))

/-- The `isinstance(message, ModelResponse)` guard plus the
tool-call-part filter of `MCPAgent._execute_all_tool_calls`
(lines 88-98). -/
def allToolCallParts : ModelMessage → List ToolCallPart
  | ModelMessage.request _ => []
  | ModelMessage.response parts => parts.filterMap ResponsePart.toolCallPart?

/-- The selection logic of `MCPAgent._execute_tool_calls`
(lines 106-118): start from `execute_tool_call_part or []`, and if
`execute_tool_call_ids` is truthy (non-`None` and non-empty) append the
message's tool-call parts whose id is in the list. -/
def selectedToolCallParts (message : ModelMessage) (ids : Option (List String))
    (explicit : Option (List ToolCallPart)) : List ToolCallPart :=
  match message with
  | ModelMessage.request _ => []
  | ModelMessage.response parts =>
    let sel := match explicit with
      | some l => l
      | none => []
    match ids with
    | some l =>
      if l.isEmpty then sel
      else sel ++ (parts.filterMap ResponsePart.toolCallPart?).filter
        (fun p => l.contains p.tool_call_id)
    | none => sel

/-- `MCPAgent._execute_all_tool_calls` (lines 88-98), with the gathered
calls completing in order `σ`. -/
def execute_all_tool_calls (mgr : MCPManager) (message : ModelMessage) (σ : List Nat) :
    Except PyError (List ToolReturnPart) :=
  gatherTasks (executeOneToolCallPart mgr) (allToolCallParts message) σ

/-- `MCPAgent._execute_tool_calls` (lines 100-122), with the gathered
calls completing in order `σ`. -/
def execute_tool_calls (mgr : MCPManager) (message : ModelMessage)
    (ids : Option (List String)) (explicit : Option (List ToolCallPart))
    (σ : List Nat) : Except PyError (List ToolReturnPart) :=
  gatherTasks (executeOneToolCallPart mgr) (selectedToolCallParts message ids explicit) σ

/-- `MCPAgent._request_stream` (lines 172-202), collapsed to its effect on
the agent state: execute the selected tool calls of `messages[-1]`
(raising exceptions before any state is mutated), append the tool-return
parts as a new request turn when non-empty, consume the model's stream to
its finalized response, then append that response to the conversation and
increment the usage counters by one request plus the engine-reported
tokens. -/
def requestStream (oracle : ModelOracle) (mgr : MCPManager) (a : MCPAgent)
    (messages : List ModelMessage) (executeAll : Bool) (ids : Option (List String))
    (explicit : Option (List ToolCallPart)) (σ : List Nat) :
    Option PyError × MCPAgent :=
  let lastMsg := (messages.getLast?).getD (ModelMessage.request [])
  let toolReturnsE :=
    if executeAll then execute_all_tool_calls mgr lastMsg σ
    else execute_tool_calls mgr lastMsg ids explicit σ
  match toolReturnsE with
  | Except.error e => (some e, a)
  | Except.ok rets =>
    let messages2 :=
      if rets.isEmpty then messages
      else messages ++ [ModelMessage.request (rets.map RequestPart.toolReturn)]
    let resp := oracle messages2
    (none,
      { a with
          last_conversation := some (messages2 ++ [ModelMessage.response resp.1])
          last_response := some resp.1
          usage := Usage.incr a.usage resp.2 1 })

/-- `MCPAgent.chat_stream` (lines 135-153): fail with
`NeedUserPromptError` — before touching any state — when the last turn of
`self._last_conversation or self._get_init_messages()` is a
`ModelResponse`; otherwise append a user-prompt request turn and run the
model exchange. -/
def MCPAgent.chat_stream (oracle : ModelOracle) (mgr : MCPManager) (a : MCPAgent)
    (prompt : String) : Option PyError × MCPAgent :=
  let prev := pyOrMsgs a.last_conversation (MCPAgent.getInitMessages a)
  match prev.getLast? with
  | some (ModelMessage.response _) => (some PyError.needUserPrompt, a)
  | _ =>
    requestStream oracle mgr a
      (prev ++ [ModelMessage.request [RequestPart.user prompt]]) false none none []

/-- `MCPAgent.run_tool_stream` (lines 155-170): no state check at all —
forward the current conversation and the permission decision directly to
`_request_stream`. -/
def MCPAgent.run_tool_stream (oracle : ModelOracle) (mgr : MCPManager) (a : MCPAgent)
    (executeAll : Bool) (ids : Option (List String))
    (explicit : Option (List ToolCallPart)) (σ : List Nat) :
    Option PyError × MCPAgent :=
  requestStream oracle mgr a (pyOrMsgs a.last_conversation (MCPAgent.getInitMessages a))
    executeAll ids explicit σ

/-- `MCPAgent.resume_stream` (lines 124-133): fail with
`AlreadyResponsedError` when there is no conversation yet or its last
turn is already a response. -/
def MCPAgent.resume_stream (oracle : ModelOracle) (mgr : MCPManager) (a : MCPAgent) :
    Option PyError × MCPAgent :=
  match a.last_conversation with
  | none => (some PyError.alreadyResponsed, a)
  | some msgs =>
    if msgs.isEmpty then (some PyError.alreadyResponsed, a)
    else
      match msgs.getLast? with
      | some (ModelMessage.response _) => (some PyError.alreadyResponsed, a)
      | _ => requestStream oracle mgr a msgs false none none []

/-!
## The resumable event streamer (`src/floword/router/streamer.py`)
-/

/-- `StreamData` (lines 17-45): a bounded event buffer
(`deque(maxlen=max_size)`, default 1000) with a one-way completion flag.
The `asyncio.Event` wake-up machinery is abstracted into the
`StreamStatus` returned by `stream_events_round` below. -/
structure StreamData (α : Type) where
  events : List α
  maxSize : Nat
  completed : Bool

/-- `StreamData()` as created by `PersistentStreamer.create_stream`:
empty buffer, default capacity 1000, not completed. -/
def StreamData.new {α : Type} : StreamData α :=
  { events := [], maxSize := 1000, completed := false }

/-- `StreamData.add_event` (lines 28-32): `deque.append` with `maxlen`
semantics — when the buffer would exceed capacity the oldest events are
evicted from the front. -/
def StreamData.add_event (s : StreamData α) (e : α) : StreamData α :=
  { s with
      events :=
        if s.maxSize < (s.events ++ [e]).length then
          (s.events ++ [e]).drop ((s.events ++ [e]).length - s.maxSize)
        else s.events ++ [e] }

/-- `StreamData.mark_completed` (lines 42-45). -/
def StreamData.mark_completed (s : StreamData α) : StreamData α :=
  { s with completed := true }

/-- What a consumer inside `StreamData.stream_events` does after draining
the buffer: `done` — the `while True` loop breaks (end of stream);
`waiting` — the consumer suspends on `self._event_added.wait()` until a
new event or completion wakes it for another round. -/
inductive StreamStatus where
  | done
  | waiting
  deriving DecidableEq, Repr

/-- One round of the `StreamData.stream_events(start_index)` loop
(lines 47-65), from entry (or wake-up) at cursor `i` to the next
suspension point: the inner `while` yields `events[i:]` and advances the
cursor to `max i len(events)`; then the round ends with `done` if
`completed` is set, else with `waiting`. -/
def StreamData.stream_events_round (s : StreamData α) (i : Nat) :
    List α × Nat × StreamStatus :=
  (s.events.drop i, max i s.events.length,
    if s.completed then StreamStatus.done else StreamStatus.waiting)

/-- `PersistentStreamer` (lines 68-107): the process-wide stream
registry. -/
structure PersistentStreamer (α : Type) where
  streams : List (String × StreamData α)

/-- `PersistentStreamer.get_stream` (lines 93-98): `ValueError` for an
unknown id. -/
def PersistentStreamer.get_stream (st : PersistentStreamer α) (id : String) :
    Except PyError (StreamData α) :=
  match assocLookup id st.streams with
  | some sd => Except.ok sd
  | none => Except.error PyError.streamNotFound

/-- `PersistentStreamer.create_stream` (lines 85-91): `ValueError` for a
duplicate id, otherwise register and return a fresh `StreamData()`. -/
def PersistentStreamer.create_stream (st : PersistentStreamer α) (id : String) :
    Except PyError (PersistentStreamer α × StreamData α) :=
  if assocHas id st.streams then Except.error PyError.streamExists
  else Except.ok ({ streams := st.streams ++ [(id, StreamData.new)] }, StreamData.new)

/-- `PersistentStreamer.delete_stream` (lines 100-103): delete if
present, silently do nothing otherwise. -/
def PersistentStreamer.delete_stream (st : PersistentStreamer α) (id : String) :
    PersistentStreamer α :=
  { streams := st.streams.filter (fun p => p.1 != id) }

/-- The stream resolution of `PersistentEventSourceResponse.__init__`
(lines 129-132): `try: get_stream(...) except ValueError:
create_stream(...)` — an unknown id is silently (re)created, never
surfaced.  The final fallback arm is unreachable: `create_stream` cannot
fail right after `get_stream` failed. -/
def attachStream (st : PersistentStreamer α) (id : String) :
    PersistentStreamer α × StreamData α :=
  match PersistentStreamer.get_stream st id with
  | Except.ok sd => (st, sd)
  | Except.error _ =>
    match PersistentStreamer.create_stream st id with
    | Except.ok r => r
    | Except.error _ => (st, StreamData.new)

/-- The `finally` block of `PersistentEventSourceResponse.__call__`
(lines 150-166): after the response is torn down, delete the stream entry
if (and only if) the stream is completed; a missing stream is ignored. -/
def finalizeResponse (st : PersistentStreamer α) (id : String) :
    PersistentStreamer α :=
  match PersistentStreamer.get_stream st id with
  | Except.ok sd =>
    if sd.completed then PersistentStreamer.delete_stream st id else st
  | Except.error _ => st

theorem pySplitChars_ne_nil (sep : Char) (l : List Char) : pySplitChars sep l ≠ [] := by
  induction l with
  | nil => simp [pySplitChars]
  | cons c rest ih =>
    by_cases hc : c = sep
    · simp [pySplitChars, hc]
    · simp only [pySplitChars, if_neg hc]
      cases h : pySplitChars sep rest with
      | nil => exact absurd h ih
      | cons f fs => simp

theorem pySplitChars_of_not_mem (sep : Char) (l : List Char) (h : sep ∉ l) :
    pySplitChars sep l = [l] := by
  induction l with
  | nil => rfl
  | cons c rest ih =>
    have hc : c ≠ sep := fun he => h (by rw [he]; exact List.mem_cons_self _ _)
    have hrest : sep ∉ rest := fun hm => h (List.mem_cons_of_mem c hm)
    simp [pySplitChars, hc, ih hrest]

theorem pySplitChars_append_sep (sep : Char) (s t : List Char) (hs : sep ∉ s) :
    pySplitChars sep (s ++ sep :: t) = s :: pySplitChars sep t := by
  induction s with
  | nil => simp [pySplitChars]
  | cons c rest ih =>
    have hc : c ≠ sep := fun he => hs (by rw [he]; exact List.mem_cons_self _ _)
    have hrest : sep ∉ rest := fun hm => hs (List.mem_cons_of_mem c hm)
    simp only [List.cons_append, pySplitChars, List.append_eq, if_neg hc]
    rw [ih hrest]

theorem pySplitChars_two_le_of_mem (sep : Char) (l : List Char) (h : sep ∈ l) :
    2 ≤ (pySplitChars sep l).length := by
  induction l with
  | nil => cases h
  | cons c rest ih =>
    by_cases hc : c = sep
    · simp only [pySplitChars, if_pos hc, List.length_cons]
      have := List.length_pos.mpr (pySplitChars_ne_nil sep rest)
      omega
    · have hm : sep ∈ rest := by
        rcases List.mem_cons.mp h with he | hm
        · exact absurd he.symm hc
        · exact hm
      simp only [pySplitChars, if_neg hc]
      cases hps : pySplitChars sep rest with
      | nil => exact absurd hps (pySplitChars_ne_nil sep rest)
      | cons f fs =>
        have := ih hm
        rw [hps] at this
        simpa using this

theorem toList_mkToolDefinitionName (s t : String) :
    (mkToolDefinitionName s t).toList = s.toList ++ '-' :: t.toList := by
  show (s ++ "-" ++ t).data = s.data ++ '-' :: t.data
  rw [String.data_append, String.data_append]
  simp

/-- C4 counterexample: the composite identity of server `"fs"` and tool
`"list-files"` (a tool name containing the separator) is *not* dispatched
back to the pair — `split("-")` yields three fields and the two-way
unpack raises `ValueError`. -/
theorem dispatch_dashed_tool_name_errors :
    dispatch_tool_definition_name (mkToolDefinitionName "fs" "list-files") =
      Except.error PyError.unpackValueError := rfl

/-- C4 (amended): the dispatch step splits the composite identity on
*every* occurrence of the separator, not on the first one only.  If
neither server name nor tool name contains `'-'` the pair round-trips;
if the tool name contains `'-'` the unpack of three or more fields raises
`ValueError` instead of dispatching. -/
theorem dispatch_splits_on_every_separator :
    (∀ s t : String, ('-') ∉ s.toList → ('-') ∉ t.toList →
      dispatch_tool_definition_name (mkToolDefinitionName s t) = Except.ok (s, t)) ∧
    (∀ s t : String, ('-') ∉ s.toList → ('-') ∈ t.toList →
      dispatch_tool_definition_name (mkToolDefinitionName s t) =
        Except.error PyError.unpackValueError) := by
  constructor
  · intro s t hs ht
    unfold dispatch_tool_definition_name pySplit
    rw [toList_mkToolDefinitionName, pySplitChars_append_sep '-' s.toList t.toList hs,
      pySplitChars_of_not_mem '-' t.toList ht]
    rfl
  · intro s t hs ht
    unfold dispatch_tool_definition_name pySplit
    rw [toList_mkToolDefinitionName, pySplitChars_append_sep '-' s.toList t.toList hs]
    have h2 := pySplitChars_two_le_of_mem '-' t.toList ht
    cases hps : pySplitChars '-' t.toList with
    | nil => exact absurd hps (pySplitChars_ne_nil '-' t.toList)
    | cons f fs =>
      cases fs with
      | nil =>
        rw [hps] at h2
        simp at h2
      | cons g gs => rfl

/-- Witness for C4 (amended): a dash-free tool name round-trips, a
dashed one raises. -/
theorem dispatch_splits_on_every_separator_witness :
    dispatch_tool_definition_name (mkToolDefinitionName "fs" "list_files") =
        Except.ok ("fs", "list_files") ∧
      dispatch_tool_definition_name (mkToolDefinitionName "srv" "a-b") =
        Except.error PyError.unpackValueError :=
  ⟨dispatch_splits_on_every_separator.1 "fs" "list_files" (by decide) (by decide),
   dispatch_splits_on_every_separator.2 "srv" "a-b" (by decide) (by decide)⟩

theorem completions_lookup (exec : α → Except ε β) (parts : List α) (σ : List Nat)
    (j : Nat) (hj : j ∈ σ) (hlt : ∀ i ∈ σ, i < parts.length) :
    assocLookup j (completions exec parts σ) = (parts.get? j).map exec := by
  revert hj hlt
  induction σ with
  | nil => intro hj hlt; cases hj
  | cons i σ2 ih =>
    intro hj hlt
    have hi : i < parts.length := hlt i (List.mem_cons_self _ _)
    cases hget : parts.get? i with
    | none =>
      have := List.get?_eq_none.mp hget
      omega
    | some pi =>
      have hget2 : parts[i]? = some pi := by
        rw [← List.get?_eq_getElem?]
        exact hget
      have hcomp : completions exec parts (i :: σ2) =
          (i, exec pi) :: completions exec parts σ2 := by
        simp [completions, List.filterMap_cons, hget2]
      rw [hcomp, assocLookup]
      by_cases hij : i = j
      · subst hij
        rw [if_pos rfl, hget]
        rfl
      · rw [if_neg hij]
        have hj2 : j ∈ σ2 := by
          rcases List.mem_cons.mp hj with h | h
          · exact absurd h.symm hij
          · exact h
        exact ih hj2 (fun x hx => hlt x (List.mem_cons_of_mem _ hx))

theorem range_filterMap_get (parts : List α) (f : α → β) :
    (List.range parts.length).filterMap (fun j => (parts.get? j).map f) =
      parts.map f := by
  induction parts with
  | nil => rfl
  | cons a l ih =>
    rw [List.length_cons, List.range_succ_eq_map, List.filterMap_cons]
    simp only [List.get?_cons_zero, Option.map_some']
    rw [List.filterMap_map]
    have hco : ((fun j => ((a :: l).get? j).map f) ∘ Nat.succ) =
        (fun j => (l.get? j).map f) := by
      funext j
      simp [Function.comp, List.get?_cons_succ]
    rw [hco, ih]
    rfl

theorem gatherTasks_all_ok (exec : α → Except ε β) (parts : List α) (σ : List Nat)
    (f : α → β) (hperm : σ.Perm (List.range parts.length))
    (hf : ∀ p ∈ parts, exec p = Except.ok (f p)) :
    gatherTasks exec parts σ = Except.ok (parts.map f) := by
  have hlt : ∀ i ∈ σ, i < parts.length := fun i hi =>
    List.mem_range.mp (hperm.mem_iff.mp hi)
  have hmemσ : ∀ j, j < parts.length → j ∈ σ := fun j hj =>
    hperm.mem_iff.mpr (List.mem_range.mpr hj)
  have herr : (completions exec parts σ).filterMap
      (fun ir => match ir.2 with
        | Except.error e => some e
        | Except.ok _ => none) = [] := by
    rw [List.filterMap_eq_nil_iff]
    intro ir hir
    unfold completions at hir
    obtain ⟨i, hiσ, hg⟩ := List.mem_filterMap.mp hir
    cases hget : parts.get? i with
    | none => rw [hget] at hg; cases hg
    | some p =>
      rw [hget] at hg
      cases hg
      have hp : p ∈ parts := List.get?_mem hget
      simp [hf p hp]
  unfold gatherTasks
  rw [herr]
  show Except.ok ((List.range parts.length).filterMap
    (fun j => (assocLookup j (completions exec parts σ)).bind exceptValue?)) =
      Except.ok (parts.map f)
  apply congrArg
  rw [← range_filterMap_get parts f]
  apply List.filterMap_congr
  intro j hj
  have hjlt := List.mem_range.mp hj
  rw [completions_lookup exec parts σ j (hmemσ j hjlt) hlt]
  cases hget : parts.get? j with
  | none =>
    have := List.get?_eq_none.mp hget
    omega
  | some p =>
    have hp : p ∈ parts := List.get?_mem hget
    simp [hf p hp, exceptValue?]

/-- Totalized success value of `executeOneToolCallPart`, used to express
the gathered results when every call succeeds. -/
def execValueOr (mgr : MCPManager) (p : ToolCallPart) : ToolReturnPart :=
  match executeOneToolCallPart mgr p with
  | Except.ok r => r
  | Except.error _ =>
    { tool_name := p.tool_name, content := { content := "", isError := true },
      tool_call_id := p.tool_call_id }

theorem executeOneToolCallPart_id (mgr : MCPManager) (p : ToolCallPart)
    (r : ToolReturnPart) (h : executeOneToolCallPart mgr p = Except.ok r) :
    r.tool_call_id = p.tool_call_id := by
  unfold executeOneToolCallPart at h
  cases hd : dispatch_tool_definition_name p.tool_name with
  | error e => rw [hd] at h; simp [Bind.bind, Except.bind] at h
  | ok st =>
    rw [hd] at h
    simp only [Bind.bind, Except.bind] at h
    cases hc : MCPManager.call_tool mgr st.1 st.2 p.args with
    | error e => simp [hc] at h
    | ok cr =>
      rw [hc] at h
      cases h
      rfl

/-- C7: for every permission decision (id list and/or explicit parts)
over a response turn, when every selected call succeeds, the gathered
tool-return parts come back one per selected tool-call part, in input
order, and the part at each position carries the `tool_call_id` of the
tool-call part at the same position — for *every* completion order `σ`
of the concurrently gathered calls. -/
theorem tool_return_pairing (mgr : MCPManager) (message : ModelMessage)
    (ids : Option (List String)) (explicit : Option (List ToolCallPart)) (σ : List Nat)
    (hperm : σ.Perm (List.range (selectedToolCallParts message ids explicit).length))
    (hok : ∀ p ∈ selectedToolCallParts message ids explicit,
      ∃ r, executeOneToolCallPart mgr p = Except.ok r) :
    ∃ rets, execute_tool_calls mgr message ids explicit σ = Except.ok rets ∧
      rets.length = (selectedToolCallParts message ids explicit).length ∧
      ∀ i, (rets.get? i).map (fun r => r.tool_call_id) =
        ((selectedToolCallParts message ids explicit).get? i).map
          (fun p => p.tool_call_id) := by
  have hfr : ∀ p ∈ selectedToolCallParts message ids explicit,
      executeOneToolCallPart mgr p = Except.ok (execValueOr mgr p) := by
    intro p hp
    obtain ⟨r, hr⟩ := hok p hp
    rw [hr]
    unfold execValueOr
    rw [hr]
  have hg := gatherTasks_all_ok (executeOneToolCallPart mgr)
    (selectedToolCallParts message ids explicit) σ (execValueOr mgr) hperm hfr
  refine ⟨(selectedToolCallParts message ids explicit).map (execValueOr mgr), hg,
    by simp, ?_⟩
  intro i
  rw [List.get?_map]
  cases hA : (selectedToolCallParts message ids explicit).get? i with
  | none => rfl
  | some p =>
    have hp : p ∈ selectedToolCallParts message ids explicit := List.get?_mem hA
    simp only [Option.map_some']
    rw [executeOneToolCallPart_id mgr p (execValueOr mgr p) (hfr p hp)]

/-- Registry used by the agent witnesses: one usable server `"fs"` that
echoes tool name and args. -/
def wMgr : MCPManager :=
  { clients := [("fs",
      { server_params := { paramsId := 0 }
        behavior :=
          { connectError := none
            callResult := fun t a => { content := String.append t a, isError := false } } })]
    disabled_clients := []
    failed_clients := []
    initialized := true
    mcp_config := [] }

/-- Two pending tool-call parts with distinct ids. -/
def wPartA : ToolCallPart := { tool_name := "fs-read", args := "p1", tool_call_id := "id1" }

def wPartB : ToolCallPart := { tool_name := "fs-write", args := "p2", tool_call_id := "id2" }

/-- A response turn proposing both calls. -/
def wRespMsg : ModelMessage :=
  ModelMessage.response [ResponsePart.toolCall wPartA, ResponsePart.toolCall wPartB]

/-- Witness for C7: both calls selected by id, completing in reverse
order (`σ = [1, 0]`, the second-issued call completes first); the results
still pair position-for-position with the originating call ids. -/
theorem tool_return_pairing_witness :
    ∃ rets, execute_tool_calls wMgr wRespMsg (some ["id1", "id2"]) none [1, 0] =
        Except.ok rets ∧
      rets.length = (selectedToolCallParts wRespMsg (some ["id1", "id2"]) none).length ∧
      ∀ i, (rets.get? i).map (fun r => r.tool_call_id) =
        ((selectedToolCallParts wRespMsg (some ["id1", "id2"]) none).get? i).map
          (fun p => p.tool_call_id) :=
  tool_return_pairing wMgr wRespMsg (some ["id1", "id2"]) none [1, 0]
    (by decide)
    (by
      intro p hp
      have hp2 : p ∈ [wPartA, wPartB] := hp
      rcases List.mem_cons.mp hp2 with h | h
      · exact ⟨_, by rw [h]; rfl⟩
      · rcases List.mem_cons.mp h with h2 | h2
        · exact ⟨_, by rw [h2]; rfl⟩
        · cases h2)

theorem pyOrMsgs_of_ne_nil (msgs : List α) (d : List α) (h : msgs ≠ []) :
    pyOrMsgs (some msgs) d = msgs := by
  cases msgs with
  | nil => exact absurd rfl h
  | cons x xs => rfl

/-- Model oracle used by the agent witnesses: a fixed plain-text reply
costing two tokens. -/
def wOracle : ModelOracle := fun _ => ([ResponsePart.text "ok"], 2)

/-- A conversation whose last turn is a response with one unresolved
tool-call part. -/
def wPendingMsgs : List ModelMessage :=
  [ModelMessage.request [RequestPart.user "hi"],
   ModelMessage.response [ResponsePart.toolCall wPartA]]

def wAgentPending : MCPAgent :=
  { system_prompt := some "sys"
    last_conversation := some wPendingMsgs
    last_response := some [ResponsePart.toolCall wPartA]
    usage := { requests := 1, total_tokens := 3 } }

/-- A conversation whose last turn is a plain-text response with no
tool-call parts. -/
def wPlainMsgs : List ModelMessage :=
  [ModelMessage.request [RequestPart.user "hi"],
   ModelMessage.response [ResponsePart.text "hello"]]

def wAgentPlain : MCPAgent :=
  { system_prompt := some "sys"
    last_conversation := some wPlainMsgs
    last_response := some [ResponsePart.text "hello"]
    usage := { requests := 1, total_tokens := 3 } }

/-- C5: `chat_stream` on a conversation whose last turn is a response
still carrying unresolved tool-call parts raises the state-conflict
error `NeedUserPromptError` and returns the agent state exactly as it
was — no turn appended, usage unchanged. -/
theorem chat_blocked_on_pending_tool_calls (oracle : ModelOracle) (mgr : MCPManager)
    (a : MCPAgent) (prompt : String) (msgs : List ModelMessage)
    (parts : List ResponsePart)
    (hlast : a.last_conversation = some msgs)
    (hresp : msgs.getLast? = some (ModelMessage.response parts))
    (hpending : parts.filterMap ResponsePart.toolCallPart? ≠ []) :
    MCPAgent.chat_stream oracle mgr a prompt = (some PyError.needUserPrompt, a) := by
  have hne : msgs ≠ [] := by
    intro h
    rw [h] at hresp
    cases hresp
  have hprev : pyOrMsgs a.last_conversation (MCPAgent.getInitMessages a) = msgs := by
    rw [hlast]
    exact pyOrMsgs_of_ne_nil msgs _ hne
  simp only [MCPAgent.chat_stream, hprev, hresp]

/-- Witness for C5: a concrete conversation ending in a response with a
pending tool call; `chat_stream` errors and the state is untouched. -/
theorem chat_blocked_on_pending_tool_calls_witness :
    MCPAgent.chat_stream wOracle wMgr wAgentPending "next" =
      (some PyError.needUserPrompt, wAgentPending) :=
  chat_blocked_on_pending_tool_calls wOracle wMgr wAgentPending "next" wPendingMsgs
    [ResponsePart.toolCall wPartA] rfl rfl (by decide)

/-- C10: `chat_stream` rejects a new prompt after *every* completed
response turn — the guard at lines 140-142 only checks
`isinstance(previous_conversation[-1], ModelResponse)`, so a plain text
response with no tool-call parts blocks a follow-up prompt exactly the
same way, raising `NeedUserPromptError` without mutating the state. -/
theorem chat_blocked_after_any_response (oracle : ModelOracle) (mgr : MCPManager)
    (a : MCPAgent) (prompt : String) (msgs : List ModelMessage)
    (parts : List ResponsePart)
    (hlast : a.last_conversation = some msgs)
    (hresp : msgs.getLast? = some (ModelMessage.response parts)) :
    MCPAgent.chat_stream oracle mgr a prompt = (some PyError.needUserPrompt, a) := by
  have hne : msgs ≠ [] := by
    intro h
    rw [h] at hresp
    cases hresp
  have hprev : pyOrMsgs a.last_conversation (MCPAgent.getInitMessages a) = msgs := by
    rw [hlast]
    exact pyOrMsgs_of_ne_nil msgs _ hne
  simp only [MCPAgent.chat_stream, hprev, hresp]

/-- Witness for C10: the last turn is a plain text response with *no*
tool-call parts, and `chat_stream` still errors and leaves the state
unchanged. -/
theorem chat_blocked_after_any_response_witness :
    MCPAgent.chat_stream wOracle wMgr wAgentPlain "next" =
      (some PyError.needUserPrompt, wAgentPlain) :=
  chat_blocked_after_any_response wOracle wMgr wAgentPlain "next" wPlainMsgs
    [ResponsePart.text "hello"] rfl rfl

theorem gatherTasks_nil (exec : α → Except ε β) (σ : List Nat) :
    gatherTasks exec ([] : List α) σ = Except.ok [] := by
  have hcomp : completions exec ([] : List α) σ = [] := by
    unfold completions
    rw [List.filterMap_eq_nil_iff]
    intro i hi
    simp
  unfold gatherTasks
  rw [hcomp]
  rfl

/-- C6 counterexample: `run_tool_stream` on a conversation whose last
turn is a plain-text response with no pending tool-call parts does *not*
fail — no `AlreadyResponsedError` (or any other error) is raised; the
call goes straight into a fresh model exchange.  (The only raise site of
`AlreadyResponsedError` in the source is `resume_stream`, lines
127-128.) -/
theorem run_tool_stream_no_pending_no_error :
    (MCPAgent.run_tool_stream wOracle wMgr wAgentPlain true none none []).1 = none := rfl

/-- C6 (amended): `run_tool_stream` performs no pending-tool-call check
at all.  When the last turn carries no pending tool-call parts (and no
explicit parts are passed), it executes nothing, raises nothing, and
directly issues a new model exchange: the model's response turn is
appended to the history and usage is incremented by one request. -/
theorem run_tool_stream_no_pending_runs_model (oracle : ModelOracle) (mgr : MCPManager)
    (a : MCPAgent) (executeAll : Bool) (ids : Option (List String))
    (explicit : Option (List ToolCallPart)) (σ : List Nat)
    (msgs : List ModelMessage) (mlast : ModelMessage)
    (hlast : a.last_conversation = some msgs)
    (hml : msgs.getLast? = some mlast)
    (hall : allToolCallParts mlast = [])
    (hexp : explicit = none ∨ explicit = some []) :
    MCPAgent.run_tool_stream oracle mgr a executeAll ids explicit σ =
      (none,
        { a with
            last_conversation := some (msgs ++ [ModelMessage.response (oracle msgs).1])
            last_response := some (oracle msgs).1
            usage := Usage.incr a.usage (oracle msgs).2 1 }) := by
  have hne : msgs ≠ [] := by
    intro h
    rw [h] at hml
    cases hml
  have hprev : pyOrMsgs a.last_conversation (MCPAgent.getInitMessages a) = msgs := by
    rw [hlast]
    exact pyOrMsgs_of_ne_nil msgs _ hne
  have hsel : selectedToolCallParts mlast ids explicit = [] := by
    cases mlast with
    | request ps => rfl
    | response parts =>
      have hfil : parts.filterMap ResponsePart.toolCallPart? = [] := hall
      unfold selectedToolCallParts
      rcases hexp with he | he <;> rw [he] <;>
        cases ids with
        | none => rfl
        | some l =>
          by_cases hl : l.isEmpty
          · simp [hl]
          · simp [hl, hfil]
  have hallsel : (if executeAll then execute_all_tool_calls mgr mlast σ
      else execute_tool_calls mgr mlast ids explicit σ) = Except.ok [] := by
    cases executeAll with
    | false =>
      rw [if_neg (by simp)]
      unfold execute_tool_calls
      rw [hsel]
      exact gatherTasks_nil _ _
    | true =>
      rw [if_pos rfl]
      unfold execute_all_tool_calls
      rw [hall]
      exact gatherTasks_nil _ _
  simp only [MCPAgent.run_tool_stream, requestStream, hprev, hml, Option.getD_some, hallsel,
    List.isEmpty_nil, if_true]

/-- Witness for C6 (amended): the concrete plain-text-response agent;
`run_tool_stream(execute_all)` silently runs a new exchange. -/
theorem run_tool_stream_no_pending_runs_model_witness :
    MCPAgent.run_tool_stream wOracle wMgr wAgentPlain true none none [] =
      (none,
        { wAgentPlain with
            last_conversation :=
              some (wPlainMsgs ++ [ModelMessage.response (wOracle wPlainMsgs).1])
            last_response := some (wOracle wPlainMsgs).1
            usage := Usage.incr wAgentPlain.usage (wOracle wPlainMsgs).2 1 }) :=
  run_tool_stream_no_pending_runs_model wOracle wMgr wAgentPlain true none none []
    wPlainMsgs (ModelMessage.response [ResponsePart.text "hello"]) rfl rfl rfl (Or.inl rfl)

/-- A stream at its default capacity: 1000 buffered events, not
completed. -/
def fullStream : StreamData Nat :=
  { events := List.replicate 1000 0, maxSize := 1000, completed := false }

set_option maxRecDepth 8192 in
/-- C8 counterexample: a consumer subscribed at index `k = 1000` of a
stream already holding `maxSize = 1000` events never receives the next
event — `deque.append` evicts the oldest event, the buffer length stays
1000, and the cursor at 1000 remains past the end, so the round yields
nothing and blocks again instead of yielding the new event. -/
theorem subscribe_at_capacity_misses_new_event :
    StreamData.stream_events_round (StreamData.add_event fullStream 7) 1000 =
      ([], 1000, StreamStatus.waiting) := by decide

/-- C8 (amended): with the cursor at `k = len(events)` on an uncompleted
stream a subscriber yields nothing and blocks; if a new event arrives
*and the buffer was below capacity* the next round yields exactly that
event; and on a completed stream a subscriber starting at or past the
end yields nothing and terminates immediately.  (At capacity the new
event evicts the oldest one and a subscriber at index `k = maxSize`
misses it — see the counterexample.) -/
theorem stream_subscribe_behaviour {α : Type} (s : StreamData α) (k : Nat) (e : α)
    (i : Nat) :
    (s.events.length = k → s.completed = false →
      StreamData.stream_events_round s k = ([], k, StreamStatus.waiting)) ∧
    (s.events.length = k → s.completed = false → k < s.maxSize →
      StreamData.stream_events_round (StreamData.add_event s e) k =
        ([e], k + 1, StreamStatus.waiting)) ∧
    (s.completed = true → s.events.length ≤ i →
      StreamData.stream_events_round s i = ([], i, StreamStatus.done)) := by
  refine ⟨?_, ?_, ?_⟩
  · intro hk hcomp
    unfold StreamData.stream_events_round
    rw [← hk]
    simp [List.drop_length, Nat.max_self, hcomp]
  · intro hk hcomp hcap
    unfold StreamData.add_event StreamData.stream_events_round
    have hlen : (s.events ++ [e]).length = k + 1 := by simp [hk]
    have hnot : ¬ (s.maxSize < (s.events ++ [e]).length) := by
      rw [hlen]
      omega
    rw [if_neg hnot]
    have hdrop : (s.events ++ [e]).drop k = [e] := by
      rw [← hk]
      exact List.drop_left s.events [e]
    simp [hdrop, hlen, hcomp, Nat.max_eq_right (Nat.le_succ k)]
  · intro hcomp hle
    unfold StreamData.stream_events_round
    simp [List.drop_eq_nil_of_le hle, Nat.max_eq_left hle, hcomp]

/-- Witness for C8 (amended): a two-event stream below capacity — the
blocked round, the arrival of event `9`, and the end-of-stream round of
a completed one-event stream read from index 5. -/
theorem stream_subscribe_behaviour_witness :
    StreamData.stream_events_round
        ({ events := [4, 5], maxSize := 1000, completed := false } : StreamData Nat) 2 =
        ([], 2, StreamStatus.waiting) ∧
      StreamData.stream_events_round
        (StreamData.add_event
          ({ events := [4, 5], maxSize := 1000, completed := false } : StreamData Nat) 9) 2 =
        ([9], 3, StreamStatus.waiting) ∧
      StreamData.stream_events_round
        ({ events := [4], maxSize := 1000, completed := true } : StreamData Nat) 5 =
        ([], 5, StreamStatus.done) :=
  ⟨(stream_subscribe_behaviour
      ({ events := [4, 5], maxSize := 1000, completed := false } : StreamData Nat) 2 9 5).1
      rfl rfl,
   (stream_subscribe_behaviour
      ({ events := [4, 5], maxSize := 1000, completed := false } : StreamData Nat) 2 9 5).2.1
      rfl rfl (by decide),
   (stream_subscribe_behaviour
      ({ events := [4], maxSize := 1000, completed := true } : StreamData Nat) 2 9 5).2.2
      rfl (by decide)⟩

/-- A registry holding one completed stream under id `"s"`, as left
behind by `process_stream` finishing while a response is attached. -/
def wCompletedRegistry : PersistentStreamer Nat :=
  { streams := [("s", { events := [3], maxSize := 1000, completed := true })] }

/-- C9 counterexample: after the response teardown deletes the completed
stream `"s"`, a direct registry lookup does raise the NotFound-kind
`ValueError`, but the attach path of `PersistentEventSourceResponse`
catches it and *silently creates a fresh empty stream* under the same id
instead of failing. -/
theorem attach_after_cleanup_creates_stream :
    PersistentStreamer.get_stream (finalizeResponse wCompletedRegistry "s") "s" =
        Except.error PyError.streamNotFound ∧
      attachStream (finalizeResponse wCompletedRegistry "s") "s" =
        ({ streams := [("s", StreamData.new)] }, (StreamData.new : StreamData Nat)) :=
  ⟨rfl, rfl⟩

/-- C9 (amended): for every registry state in which the id is absent
(in particular after a completed stream's entry was deleted), only the
registry's `get_stream` fails with the NotFound-kind error; the attach
path of `PersistentEventSourceResponse.__init__` catches that error and
silently registers and returns a fresh empty stream under the id. -/
theorem get_fails_attach_creates {α : Type} (st : PersistentStreamer α) (id : String)
    (h : assocLookup id st.streams = none) :
    PersistentStreamer.get_stream st id = Except.error PyError.streamNotFound ∧
    attachStream st id =
      ({ streams := st.streams ++ [(id, StreamData.new)] },
        (StreamData.new : StreamData α)) := by
  have hget : PersistentStreamer.get_stream st id = Except.error PyError.streamNotFound := by
    unfold PersistentStreamer.get_stream
    rw [h]
  refine ⟨hget, ?_⟩
  unfold attachStream
  rw [hget]
  have hhas : assocHas id st.streams = false := by
    unfold assocHas
    rw [h]
    rfl
  unfold PersistentStreamer.create_stream
  simp [hhas]

/-- Witness for C9 (amended): the empty registry, id `"x"`. -/
theorem get_fails_attach_creates_witness :
    PersistentStreamer.get_stream ({ streams := [] } : PersistentStreamer Nat) "x" =
        Except.error PyError.streamNotFound ∧
      attachStream ({ streams := [] } : PersistentStreamer Nat) "x" =
        ({ streams := [("x", StreamData.new)] }, (StreamData.new : StreamData Nat)) :=
  get_fails_attach_creates ({ streams := [] } : PersistentStreamer Nat) "x" rfl
